import Mathlib

/-!
A shallow embedding of `src/libfm_sparse_v1.py` — a Python port of the libFM
MCMC/ALS factorization-machine trainer — together with theorems about the
embedded operations.

Conventions used throughout:

* numpy float arithmetic is modelled over `ℚ` (exact arithmetic).  `np.sqrt`
  is modelled by an abstract function parameter `sqrtQ : ℚ → ℚ` where the
  source calls it inside the sampler (square roots leave `ℚ`); a small
  IEEE-754-style domain `EFloat` is introduced separately for the one claim
  where non-finite float values are the point.
* the sparse matrices `data` / `data_t` are modelled as dense index functions
  `Fin n → Fin m → ℚ` (samples × features); a structural zero of the sparse
  representation is the numeric 0 of the dense function.  `v * data_t` (numpy
  1-d array times scipy sparse matrix) is a matrix product, i.e. the
  per-sample dot product `fun c => ∑ i, v i * X c i`.
* the numpy global pseudo-random stream is modelled by a value of type `RNG`
  (abstract draw functions) plus a consumption counter (`RState`); the exact
  counter bookkeeping is a convention, what matters is that every draw is a
  pure function of the stream value and the counter.
* the two cache rows `cache[0]` / `cache[1]` (e-terms and q-terms; the spec's
  error_term and partial_sum) are the two components of a pair of
  `Fin num_cases → ℚ` functions.
-/

namespace LibFM

/-- Numpy clip: `np.clip(x, lo, hi) = minimum(maximum(x, lo), hi)`. -/
def np_clip (x lo hi : ℚ) : ℚ := min (max x lo) hi

/-- Numpy `np.isinf` restricted to the embedded exact domain: a rational is
never infinite.  (See the `EFloat` section for the float-domain version.) -/
def np_isinf (_ : ℚ) : Bool := false

/-- Numpy `np.isnan` restricted to the embedded exact domain: a rational is
never NaN.  (See the `EFloat` section for the float-domain version.) -/
def np_isnan (_ : ℚ) : Bool := false

/-- Abstract model of the numpy global pseudo-random source: `gauss k` is the
k-th `np.random.randn()` value, and `gammaDraw k shape scale` is the value of
the k-th `np.random.gamma(shape, scale)` call. -/
structure RNG where
  gauss : ℕ → ℚ
  gammaDraw : ℕ → ℚ → ℚ → ℚ

/-- The numpy global random state: the stream plus how many draw calls have
happened so far. -/
structure RState where
  rng : RNG
  k : ℕ

/-- One scalar `np.random.randn()` call. -/
def randn (s : RState) : ℚ × RState := (s.rng.gauss s.k, ⟨s.rng, s.k + 1⟩)

/-- One `np.random.gamma(shape, scale)` call (numpy is parameterized by the
SCALE, the inverse rate). -/
def np_gamma (shape scale : ℚ) (s : RState) : ℚ × RState :=
  (s.rng.gammaDraw s.k shape scale, ⟨s.rng, s.k + 1⟩)

/-- MCMC_learn.ran_gaussian (source lines 504-505):
`mean + stdev * np.random.randn()`. -/
def ran_gaussian (mean stdev : ℚ) (s : RState) : ℚ × RState :=
  let p := randn s
  (mean + stdev * p.1, p.2)

/-- MCMC_learn.ran_gamma (source lines 507-512):
`np.random.gamma(alpha, 1/beta)` — `beta` is a rate, numpy takes a scale.
(The `np.asarray` wrapping of a scalar result is a shape detail dropped
here.) -/
def ran_gamma (alpha beta : ℚ) (s : RState) : ℚ × RState :=
  np_gamma alpha (1 / beta) s

/-- A `ran_gaussian` call with numpy ARRAY mean/stdev arguments: a single
scalar `np.random.randn()` draw is broadcast over all components. -/
def ran_gaussian_vec {G : ℕ} (mean stdev : Fin G → ℚ) (s : RState) :
    (Fin G → ℚ) × RState :=
  let p := randn s
  (fun γ => mean γ + stdev γ * p.1, p.2)

/-- A `ran_gamma` call with numpy array arguments: one `np.random.gamma` call
drawing componentwise; modelled as one counter tick with per-component shape
and scale arguments. -/
def ran_gamma_vec {G : ℕ} (alpha beta : Fin G → ℚ) (s : RState) :
    (Fin G → ℚ) × RState :=
  (fun γ => s.rng.gammaDraw s.k (alpha γ) (1 / beta γ), ⟨s.rng, s.k + 1⟩)

/-- The guard `if self.seed > -1:` of libFM.__init__ (line 83).  In Python 2 a
`None` seed compares below every int, so `None > -1` is `False` and the
ambient global stream is left in place. -/
def seed_active : Option ℤ → Bool
  | none => false
  | some s => decide (-1 < s)

/-- Abstracts `np.random.seed(seed)`: an active seed replaces the global
stream by a stream that is a fixed function of the seed value; otherwise the
ambient stream stays in place. -/
def effective_rng (seed : Option ℤ) (seedFn : ℤ → RNG) (ambient : RNG) : RNG :=
  if seed_active seed then seedFn (seed.getD 0) else ambient

/-- Data.__init__ (lines 532-541): `min_target` starts at `float("inf")` and
is folded with `min` over the target value of every row; `⊤ : WithTop ℚ`
plays the role of `+inf`. -/
def data_min_target {n : ℕ} (target : Fin n → ℚ) : WithTop ℚ :=
  (List.finRange n).foldl (fun acc c => min acc (target c : WithTop ℚ)) ⊤

/-- Data.__init__ (lines 532-541): `max_target` starts at `-float("inf")` and
is folded with `max` over the target value of every row. -/
def data_max_target {n : ℕ} (target : Fin n → ℚ) : WithBot ℚ :=
  (List.finRange n).foldl (fun acc c => max acc (target c : WithBot ℚ)) ⊥

/-- The libFM model parameters, plus the regularization constants the fm
object carries (libFM.__init__ lines 73-78, 87-92; MCMC_learn.learn mutates
the reg fields, line 139). -/
structure FMModel (m K : ℕ) where
  w0 : ℚ
  w : Fin m → ℚ
  v : Fin K → Fin m → ℚ
  reg0 : ℚ
  regw : ℚ
  regv : ℚ

/-- The hierarchical prior state of MCMC_learn (lines 120-129). -/
structure HyperState (G K : ℕ) where
  alpha : ℚ
  w_mu : Fin G → ℚ
  w_lambda : Fin G → ℚ
  v_mu : Fin G → Fin K → ℚ
  v_lambda : Fin G → Fin K → ℚ

/-- Static inputs and flags consulted by MCMC_learn's methods:
the train/test matrices and targets, the group metadata, the k0/k1 and
sampling flags, and the clip bounds chosen at construction
(`self.min_target = train.min_target`, lines 112-113). -/
structure LearnCtx (n n' m G K : ℕ) where
  X : Fin n → Fin m → ℚ
  target : Fin n → ℚ
  Xtest : Fin n' → Fin m → ℚ
  target_test : Fin n' → ℚ
  attr_group : Fin m → Fin G
  num_attr_per_group : Fin G → ℚ
  k0 : Bool
  k1 : Bool
  do_sample : Bool
  do_multilevel : Bool
  num_iter : ℕ
  min_target : ℚ
  max_target : ℚ
  sqrtQ : ℚ → ℚ

/-- The mutable state of one MCMC_learn run.  `cache` and `cache_test` are
the (row 0, row 1) pairs: e-terms and q-terms of the train/test caches. -/
structure MState (n n' m G K : ℕ) where
  fm : FMModel m K
  hyp : HyperState G K
  cache : (Fin n → ℚ) × (Fin n → ℚ)
  cache_test : (Fin n' → ℚ) × (Fin n' → ℚ)
  pred_sum_all : Fin n' → ℚ
  pred_this : Fin n' → ℚ
  r : RState

/-- MCMC_learn.__init__ line 120: `self.alpha_0 = 1.0`. -/
def alpha_0 : ℚ := 1

/-- MCMC_learn.__init__ line 120: `self.gamma_0 = 1.0`. -/
def gamma_0 : ℚ := 1

/-- MCMC_learn.__init__ line 120: `self.beta_0 = 1.0`. -/
def beta_0 : ℚ := 1

/-- MCMC_learn.__init__ line 120: `self.mu_0 = 0.0`. -/
def mu_0 : ℚ := 0

/-- MCMC_learn.__init__ line 123: `self.w0_mean_0 = 0.0`. -/
def w0_mean_0 : ℚ := 0

/-- The opening statements of predict_data_and_write_to_eterms (lines
215-216): both cache rows are replaced by fresh zeros (`np.zeros_like`); the
previous cache contents are discarded entirely. -/
def zero_cache {n : ℕ} (_prev : (Fin n → ℚ) × (Fin n → ℚ)) :
    (Fin n → ℚ) × (Fin n → ℚ) :=
  (fun _ => 0, fun _ => 0)

/-- One iteration of loop (1) of predict_data_and_write_to_eterms (lines
219-232), for one dataset: `cache[1] += v[f] * data_t` (the per-sample dot
product), then `cache[0] += 0.5 * cache[1]^2`, then `cache[1] := 0`. -/
def eterm_stage1 {n m K : ℕ} (v : Fin K → Fin m → ℚ) (X : Fin n → Fin m → ℚ)
    (eq : (Fin n → ℚ) × (Fin n → ℚ)) (f : Fin K) :
    (Fin n → ℚ) × (Fin n → ℚ) :=
  let q1 : Fin n → ℚ := fun c => eq.2 c + ∑ i, v f i * X c i
  (fun c => eq.1 c + (1 / 2 : ℚ) * q1 c * q1 c, fun _ => 0)

/-- One iteration of loop (2) of predict_data_and_write_to_eterms (lines
235-241): `cache[1] -= 0.5 * (v*v) * data_t.multiply(data_t)`, i.e. the
per-sample dot product of the squared factor row with the squared feature
values. -/
def eterm_stage2 {n m K : ℕ} (v : Fin K → Fin m → ℚ) (X : Fin n → Fin m → ℚ)
    (eq : (Fin n → ℚ) × (Fin n → ℚ)) (f : Fin K) :
    (Fin n → ℚ) × (Fin n → ℚ) :=
  (eq.1, fun c => eq.2 c - (1 / 2 : ℚ) * ∑ i, (v f i * v f i) * (X c i * X c i))

/-- MCMC_learn.predict_data_and_write_to_eterms (lines 213-255), for one
dataset (the source interleaves the train and test computations inside the
same loops; the per-dataset computations are independent, so the pass is
embedded per dataset).  Steps: zero both rows; loop (1) over factor
dimensions; loop (2) over factor dimensions; add the 1-way terms to the
q-row if k1; merge `cache[0] += cache[1]`, add w0 if k0; zero the q-row. -/
def predict_data_and_write_to_eterms {n m K : ℕ} (k0 k1 : Bool) (w0 : ℚ)
    (w : Fin m → ℚ) (v : Fin K → Fin m → ℚ) (X : Fin n → Fin m → ℚ)
    (prev : (Fin n → ℚ) × (Fin n → ℚ)) : (Fin n → ℚ) × (Fin n → ℚ) :=
  let z := zero_cache prev
  let s1 := (List.finRange K).foldl (eterm_stage1 v X) z
  let s2 := (List.finRange K).foldl (eterm_stage2 v X) s1
  let s3 := if k1 then (s2.1, fun c => s2.2 c + ∑ i, w i * X c i) else s2
  let e4 : Fin n → ℚ := fun c => s3.1 c + s3.2 c
  let e5 : Fin n → ℚ := if k0 then fun c => e4 c + w0 else e4
  (e5, fun _ => 0)

/-- MCMC_learn.learn, lines 144 and 166: `self.cache[0] -= self.train.target_value`
— the once-per-iteration in-place conversion of raw predictions to residuals
(e-terms). -/
def subtract_target {n : ℕ} (e : Fin n → ℚ) (target : Fin n → ℚ) : Fin n → ℚ :=
  fun c => e c - target c

/-- The cache patch `cache_row -= delta * column` (a scalar times one sparse
feature column, e.g. line 354 / 394); entries outside the column's support
are untouched because the column is 0 there. -/
def patch_row {n : ℕ} (row : Fin n → ℚ) (delta : ℚ) (x : Fin n → ℚ) :
    Fin n → ℚ :=
  fun c => row c - delta * x c

/-- `np.bincount(g, weights=w)`: for each group, the sum of the weights of
the features assigned to that group. -/
def bincount {m G : ℕ} (g : Fin m → Fin G) (wts : Fin m → ℚ) : Fin G → ℚ :=
  fun γ => ∑ i, if g i = γ then wts i else 0

/-- MCMC_learn.draw_alpha (lines 398-410).  Non-multilevel: `alpha := alpha_0`
and return (no draw).  Multilevel: a Gamma draw with shape
`(alpha_0 + num_cases)/2` and rate `(Σ e²)/2` (the assignment
`gamma_n = self.gamma_0` on line 404 is dead: line 407 overwrites it). -/
def draw_alpha {n n' m G K : ℕ} (ctx : LearnCtx n n' m G K)
    (s : MState n n' m G K) : MState n n' m G K :=
  if !ctx.do_multilevel then
    { s with hyp := { s.hyp with alpha := alpha_0 } }
  else
    let alpha_n := alpha_0 + (n : ℚ)
    let gamma_n := ∑ c, s.cache.1 c * s.cache.1 c
    let p := ran_gamma (alpha_n / 2) (gamma_n / 2) s.r
    { s with hyp := { s.hyp with alpha := p.1 }, r := p.2 }

/-- MCMC_learn.draw_w0 (lines 305-321). -/
def draw_w0 {n n' m G K : ℕ} (ctx : LearnCtx n n' m G K)
    (s : MState n n' m G K) : MState n n' m G K :=
  let w0_mean1 := ∑ c, (s.cache.1 c - s.fm.w0)
  let w0_sigma_sqr := 1 / (s.fm.reg0 + s.hyp.alpha * (n : ℚ))
  let w0_mean := - w0_sigma_sqr * (s.hyp.alpha * w0_mean1 - w0_mean_0 * s.fm.reg0)
  let w0_old := s.fm.w0
  let p :=
    if ctx.do_sample then ran_gaussian w0_mean (ctx.sqrtQ w0_sigma_sqr) s.r
    else (w0_mean, s.r)
  { s with fm := { s.fm with w0 := p.1 },
           cache := (fun c => s.cache.1 c - (w0_old - p.1), s.cache.2),
           r := p.2 }

/-- One iteration (one feature i) of the loop of MCMC_learn.draw_w (lines
328-354), threading `(w, cache[0], random state)`.  `x` is feature i's sparse
column over samples (`X.getrow(i)` of the transposed data); `w_mean1` is
`h.sum()` with `h = x_li.multiply(-Y)`, `Y = w[i]*x_li - cache[0]` on the
support — the dense form is exact because `x c = 0` kills the summand.  The
isinf/isnan guards test the PRE-draw value `w[i]` (over `ℚ` they never
fire). -/
def draw_w_step {n n' m G K : ℕ} (ctx : LearnCtx n n' m G K)
    (w_mu w_lambda : Fin m → ℚ) (alpha : ℚ)
    (st : (Fin m → ℚ) × (Fin n → ℚ) × RState) (i : Fin m) :
    (Fin m → ℚ) × (Fin n → ℚ) × RState :=
  let w := st.1
  let e := st.2.1
  let r := st.2.2
  let x : Fin n → ℚ := fun c => ctx.X c i
  let w_mean1 := ∑ c, x c * (e c - w i * x c)
  let w_sigma1 := ∑ c, x c * x c
  let w_sigma_sqr := 1 / (w_lambda i + alpha * w_sigma1)
  let w_mean := - w_sigma_sqr * (alpha * w_mean1 - w_mu i * w_lambda i)
  let w_old := w i
  let p :=
    if np_isinf (w i) then ((0 : ℚ), r)
    else if np_isnan (w i) then ((0 : ℚ), r)
    else if ctx.do_sample then ran_gaussian w_mean (ctx.sqrtQ w_sigma_sqr) r
    else (w_mean, r)
  (Function.update w i p.1, patch_row e (w_old - p.1) x, p.2)

/-- MCMC_learn.draw_w (lines 324-354): the sequential loop over all features
(each iteration reads the cache updated by the previous ones). -/
def draw_w {n n' m G K : ℕ} (ctx : LearnCtx n n' m G K)
    (w_mu w_lambda : Fin m → ℚ) (s : MState n n' m G K) : MState n n' m G K :=
  let res := (List.finRange m).foldl (draw_w_step ctx w_mu w_lambda s.hyp.alpha)
    (s.fm.w, s.cache.1, s.r)
  { s with fm := { s.fm with w := res.1 }, cache := (res.2.1, s.cache.2),
           r := res.2.2 }

/-- One iteration (one feature i) of the loop of MCMC_learn.draw_v (lines
360-395), threading `(v[f], cache[0], cache[1], random state)`.  `h` is the
h-term `x_li.multiply(-Y)` with `Y = v[f][i]*x_li - cache[1]` on the support;
after the commit, the source recomputes `h` (with `v_old`, from the still
un-patched q-row, lines 391-393), then patches `cache[1] -= delta*x` and
`cache[0] -= delta*h`. -/
def draw_v_step {n n' m G K : ℕ} (ctx : LearnCtx n n' m G K)
    (v_mu v_lambda : Fin m → ℚ) (alpha : ℚ)
    (st : (Fin m → ℚ) × (Fin n → ℚ) × (Fin n → ℚ) × RState) (i : Fin m) :
    (Fin m → ℚ) × (Fin n → ℚ) × (Fin n → ℚ) × RState :=
  let vf := st.1
  let e := st.2.1
  let q := st.2.2.1
  let r := st.2.2.2
  let x : Fin n → ℚ := fun c => ctx.X c i
  let h : Fin n → ℚ := fun c => x c * (q c - vf i * x c)
  let v_mean1 := ∑ c, h c * e c
  let v_sigma1 := ∑ c, h c * h c
  let v_mean2 := v_mean1 - vf i * v_sigma1
  let v_sigma_sqr := 1 / (v_lambda i + alpha * v_sigma1)
  let v_mean := - v_sigma_sqr * (alpha * v_mean2 - v_mu i * v_lambda i)
  let v_old := vf i
  let p :=
    if np_isinf (vf i) then ((0 : ℚ), r)
    else if np_isnan (vf i) then ((0 : ℚ), r)
    else if ctx.do_sample then ran_gaussian v_mean (ctx.sqrtQ v_sigma_sqr) r
    else (v_mean, r)
  let h2 : Fin n → ℚ := fun c => x c * (q c - v_old * x c)
  (Function.update vf i p.1, patch_row e (v_old - p.1) h2,
    patch_row q (v_old - p.1) x, p.2)

/-- MCMC_learn.draw_v (lines 358-395) for one factor dimension f. -/
def draw_v {n n' m G K : ℕ} (ctx : LearnCtx n n' m G K) (f : Fin K)
    (v_mu v_lambda : Fin m → ℚ) (s : MState n n' m G K) : MState n n' m G K :=
  let res := (List.finRange m).foldl (draw_v_step ctx v_mu v_lambda s.hyp.alpha)
    (s.fm.v f, s.cache.1, s.cache.2, s.r)
  { s with fm := { s.fm with v := Function.update s.fm.v f res.1 },
           cache := (res.2.1, res.2.2.1), r := res.2.2.2 }

/-- MCMC_learn.draw_w_mu (lines 414-435).  Non-multilevel: `w_mu := mu_0`
componentwise.  Multilevel: mean over each group's weights with prior
pseudo-count, one shared scalar randn in sampling mode. -/
def draw_w_mu {n n' m G K : ℕ} (ctx : LearnCtx n n' m G K)
    (s : MState n n' m G K) : MState n n' m G K :=
  if !ctx.do_multilevel then
    { s with hyp := { s.hyp with w_mu := fun _ => mu_0 } }
  else
    let w_mu_mean0 := bincount ctx.attr_group s.fm.w
    let w_mu_mean : Fin G → ℚ :=
      fun γ => (w_mu_mean0 γ + beta_0 * mu_0) / (ctx.num_attr_per_group γ + beta_0)
    let w_mu_sigma_sqr : Fin G → ℚ :=
      fun γ => 1 / ((ctx.num_attr_per_group γ + beta_0) * s.hyp.w_lambda γ)
    if ctx.do_sample then
      let res := ran_gaussian_vec w_mu_mean (fun γ => ctx.sqrtQ (w_mu_sigma_sqr γ)) s.r
      { s with hyp := { s.hyp with w_mu := res.1 }, r := res.2 }
    else
      { s with hyp := { s.hyp with w_mu := w_mu_mean } }

/-- MCMC_learn.draw_w_lambda (lines 437-457).  Non-multilevel: unchanged.
Multilevel: a Gamma draw per group (one vector `np.random.gamma` call in
sampling mode), else the ratio `alpha/gamma`. -/
def draw_w_lambda {n n' m G K : ℕ} (ctx : LearnCtx n n' m G K)
    (s : MState n n' m G K) : MState n n' m G K :=
  if !ctx.do_multilevel then s
  else
    let w_lambda_gamma : Fin G → ℚ :=
      fun γ => beta_0 * (s.hyp.w_mu γ - mu_0) * (s.hyp.w_mu γ - mu_0) + gamma_0
        + bincount ctx.attr_group
            (fun i => (s.fm.w i - s.hyp.w_mu (ctx.attr_group i))
              * (s.fm.w i - s.hyp.w_mu (ctx.attr_group i))) γ
    let w_lambda_alpha : Fin G → ℚ :=
      fun γ => alpha_0 + ctx.num_attr_per_group γ + 1
    if ctx.do_sample then
      let res := ran_gamma_vec (fun γ => w_lambda_alpha γ / 2)
        (fun γ => w_lambda_gamma γ / 2) s.r
      { s with hyp := { s.hyp with w_lambda := res.1 }, r := res.2 }
    else
      { s with hyp := { s.hyp with
          w_lambda := (fun γ => w_lambda_alpha γ / w_lambda_gamma γ) } }

/-- MCMC_learn.draw_v_mu (lines 459-479).  Non-multilevel: `v_mu := mu_0`.
Multilevel: loop over factor dimensions, one shared scalar randn per
dimension in sampling mode; uses the current `v_lambda[:, f]`. -/
def draw_v_mu {n n' m G K : ℕ} (ctx : LearnCtx n n' m G K)
    (s : MState n n' m G K) : MState n n' m G K :=
  if !ctx.do_multilevel then
    { s with hyp := { s.hyp with v_mu := fun _ _ => mu_0 } }
  else
    let step := fun (st : (Fin G → Fin K → ℚ) × RState) (f : Fin K) =>
      let v_mu_mean0 := bincount ctx.attr_group (fun i => s.fm.v f i)
      let v_mu_mean : Fin G → ℚ :=
        fun γ => (v_mu_mean0 γ + beta_0 * mu_0) / (ctx.num_attr_per_group γ + beta_0)
      let v_mu_sigma_sqr : Fin G → ℚ :=
        fun γ => 1 / ((ctx.num_attr_per_group γ + beta_0) * s.hyp.v_lambda γ f)
      if ctx.do_sample then
        let res := ran_gaussian_vec v_mu_mean
          (fun γ => ctx.sqrtQ (v_mu_sigma_sqr γ)) st.2
        ((fun γ f' => if f' = f then res.1 γ else st.1 γ f'), res.2)
      else
        ((fun γ f' => if f' = f then v_mu_mean γ else st.1 γ f'), st.2)
    let res := (List.finRange K).foldl step (s.hyp.v_mu, s.r)
    { s with hyp := { s.hyp with v_mu := res.1 }, r := res.2 }

/-- MCMC_learn.draw_v_lambda (lines 481-497).  Non-multilevel: unchanged.
Multilevel: loop over factor dimensions, one vector Gamma call per dimension
in sampling mode; uses the current `v_mu[:, f]`. -/
def draw_v_lambda {n n' m G K : ℕ} (ctx : LearnCtx n n' m G K)
    (s : MState n n' m G K) : MState n n' m G K :=
  if !ctx.do_multilevel then s
  else
    let step := fun (st : (Fin G → Fin K → ℚ) × RState) (f : Fin K) =>
      let v_lambda_gamma : Fin G → ℚ :=
        fun γ => beta_0 * (s.hyp.v_mu γ f - mu_0) * (s.hyp.v_mu γ f - mu_0) + gamma_0
          + bincount ctx.attr_group
              (fun i => (s.fm.v f i - s.hyp.v_mu (ctx.attr_group i) f)
                * (s.fm.v f i - s.hyp.v_mu (ctx.attr_group i) f)) γ
      let v_lambda_alpha : Fin G → ℚ :=
        fun γ => alpha_0 + ctx.num_attr_per_group γ + 1
      if ctx.do_sample then
        let res := ran_gamma_vec (fun γ => v_lambda_alpha γ / 2)
          (fun γ => v_lambda_gamma γ / 2) st.2
        ((fun γ f' => if f' = f then res.1 γ else st.1 γ f'), res.2)
      else
        ((fun γ f' => if f' = f then v_lambda_alpha γ / v_lambda_gamma γ else st.1 γ f'),
          st.2)
    let res := (List.finRange K).foldl step (s.hyp.v_lambda, s.r)
    { s with hyp := { s.hyp with v_lambda := res.1 }, r := res.2 }

/-- MCMC_learn.draw_all (lines 276-302): draw alpha; bias if k0; the weight
hyperpriors (lambda first, then mu) and all weights if k1; the factor
hyperpriors if K > 0; then, per factor dimension f: rebuild the q-row as
`v[f] * data_t` (after zeroing it) and draw all of dimension f's factors. -/
def draw_all {n n' m G K : ℕ} (ctx : LearnCtx n n' m G K)
    (s0 : MState n n' m G K) : MState n n' m G K :=
  let s1 := draw_alpha ctx s0
  let s2 := if ctx.k0 then draw_w0 ctx s1 else s1
  let s3 :=
    if ctx.k1 then
      let s2a := draw_w_lambda ctx s2
      let s2b := draw_w_mu ctx s2a
      draw_w ctx (fun i => s2b.hyp.w_mu (ctx.attr_group i))
        (fun i => s2b.hyp.w_lambda (ctx.attr_group i)) s2b
    else s2
  let s4 := if 0 < K then draw_v_mu ctx (draw_v_lambda ctx s3) else s3
  (List.finRange K).foldl
    (fun s f =>
      let s' := { s with
        cache := (s.cache.1, fun c => ∑ i, s.fm.v f i * ctx.X c i) }
      draw_v ctx f (fun i => s'.hyp.v_mu (ctx.attr_group i) f)
        (fun i => s'.hyp.v_lambda (ctx.attr_group i) f) s')
    s4

/-- The full-recompute pass applied to both datasets (MCMC_learn.learn lines
140 and 150 call predict_data_and_write_to_eterms, which fills both the train
and the test cache from the current model). -/
def recompute_step {n n' m G K : ℕ} (ctx : LearnCtx n n' m G K)
    (s : MState n n' m G K) : MState n n' m G K :=
  { s with
    cache := predict_data_and_write_to_eterms ctx.k0 ctx.k1 s.fm.w0 s.fm.w
      s.fm.v ctx.X s.cache,
    cache_test := predict_data_and_write_to_eterms ctx.k0 ctx.k1 s.fm.w0
      s.fm.w s.fm.v ctx.Xtest s.cache_test }

/-- The per-iteration evaluation/accumulation block of MCMC_learn.learn
(lines 152-167), regression task: `pred_this` is set to a copy of the raw
test e-row; the test e-row, clipped to the train target bounds, is added to
the running sum `pred_sum_all`; the train e-row is converted to residuals by
subtracting the target once.  (The train RMSE and the call to `evaluate` on
lines 162-176 only feed prints and are state-free.) -/
def eval_step {n n' m G K : ℕ} (ctx : LearnCtx n n' m G K)
    (s : MState n n' m G K) : MState n n' m G K :=
  { s with
    pred_this := s.cache_test.1,
    pred_sum_all := fun c =>
      s.pred_sum_all c + np_clip (s.cache_test.1 c) ctx.min_target ctx.max_target,
    cache := (subtract_target s.cache.1 ctx.target, s.cache.2) }

/-- MCMC_learn.learn (lines 137-179, regression task): zero the fm reg
constants; full recompute; subtract the target once; then per iteration:
draw_all, full recompute, evaluation/accumulation block. -/
def learn {n n' m G K : ℕ} (ctx : LearnCtx n n' m G K)
    (s0 : MState n n' m G K) : MState n n' m G K :=
  let s1 := { s0 with fm := { s0.fm with reg0 := 0, regw := 0, regv := 0 } }
  let s2 := recompute_step ctx s1
  let s3 := { s2 with cache := (subtract_target s2.cache.1 ctx.target, s2.cache.2) }
  (List.range ctx.num_iter).foldl
    (fun s _i => eval_step ctx (recompute_step ctx (draw_all ctx s))) s3

/-- MCMC_learn.predict (lines 193-210, regression task): the averaged running
sum when do_sample, else the last raw prediction vector; in both cases
clipped to the stored (train) target bounds. -/
def predict {n n' m G K : ℕ} (ctx : LearnCtx n n' m G K)
    (s : MState n n' m G K) : Fin n' → ℚ :=
  let out : Fin n' → ℚ :=
    if ctx.do_sample then fun c => s.pred_sum_all c / (ctx.num_iter : ℚ)
    else s.pred_this
  fun c => np_clip (out c) ctx.min_target ctx.max_target

/-- MCMC_learn.evaluate (lines 257-274).  The leading
`assert(pred.shape[0] == target.shape[0])` is modelled by `Option` (`none` =
assertion failure).  `end = min(pred.shape[0], to_case)`; predictions are
scaled by the normalizer, clipped, and compared to the target prefix.  The
first component carries the RMSE radicand `Σ err² / num_cases` (the source
applies `np.sqrt` to it, which leaves `ℚ`); the second is the MAE.
`from_case` is accepted and never used, exactly as in the source body. -/
def evaluate (min_t max_t : ℚ) (pred target : List ℚ) (normalizer : ℚ)
    (from_case to_case : ℕ) : Option (ℚ × ℚ) :=
  if pred.length = target.length then
    let e := min pred.length to_case
    let tmp := (pred.take e).map (fun p => np_clip (p * normalizer) min_t max_t)
    let err := List.zipWith (fun a b => a - b) tmp (target.take e)
    some (((err.map (fun t => t * t)).sum) / (e : ℚ),
          ((err.map (fun t => |t|)).sum) / (e : ℚ))
  else none

/-- The learning method selector: the source accepts `mcmc` and `als`
(argparse restricts `-method` to these two choices). -/
inductive Method where
  | mcmc : Method
  | als : Method
deriving DecidableEq

/-- The configuration flags computed by libFM.__init__. -/
structure LibFMFlags where
  do_sample : Bool
  do_multilevel : Bool
  reg0 : ℚ
  regw : ℚ
  regv : ℚ
deriving DecidableEq

/-- libFM.__init__ lines 44-78: the `'als'` branch sets
`do_sample = do_multilevel = False` and then REBINDS `method = 'mcmc'`
(line 50); the later regularization test `if method == 'mcmc'` (line 73)
therefore always takes the zero branch, and the `else` branch that would
store `param_regular` is unreachable for both accepted methods. -/
def libFM_configure (method : Method) (param_regular : ℚ × ℚ × ℚ) : LibFMFlags :=
  let do_sample := match method with | .mcmc => true | .als => false
  let do_multilevel := match method with | .mcmc => true | .als => false
  let method1 : Method := match method with | .mcmc => .mcmc | .als => .mcmc
  let regs : ℚ × ℚ × ℚ :=
    match method1 with
    | .mcmc => (0, 0, 0)
    | .als => param_regular
  { do_sample := do_sample, do_multilevel := do_multilevel,
    reg0 := regs.1, regw := regs.2.1, regv := regs.2.2 }

/-- All externally supplied inputs of one run: data, metadata, configuration
and the seed. -/
structure FMInputs (n n' m G K : ℕ) where
  X : Fin n → Fin m → ℚ
  target : Fin n → ℚ
  Xtest : Fin n' → Fin m → ℚ
  target_test : Fin n' → ℚ
  attr_group : Fin m → Fin G
  num_attr_per_group : Fin G → ℚ
  k0 : Bool
  k1 : Bool
  num_iter : ℕ
  init_stdev : ℚ
  method : Method
  param_regular : ℚ × ℚ × ℚ
  seed : Option ℤ
  sqrtQ : ℚ → ℚ

/-- MCMC_learn.__init__ lines 112-113: the clip bounds stored by the engine
are the TRAINING set's target bounds (`train.min_target`, `train.max_target`),
extracted from the Data fold (meaningful whenever the training set is
nonempty, the only case in which the program runs). -/
def mk_ctx {n n' m G K : ℕ} (inp : FMInputs n n' m G K) (flags : LibFMFlags) :
    LearnCtx n n' m G K :=
  { X := inp.X, target := inp.target, Xtest := inp.Xtest,
    target_test := inp.target_test, attr_group := inp.attr_group,
    num_attr_per_group := inp.num_attr_per_group,
    k0 := inp.k0, k1 := inp.k1,
    do_sample := flags.do_sample, do_multilevel := flags.do_multilevel,
    num_iter := inp.num_iter,
    min_target := (data_min_target inp.target).untop' 0,
    max_target := (data_max_target inp.target).unbot' 0,
    sqrtQ := inp.sqrtQ }

/-- One whole run given the effective initial random stream: libFM.__init__
initialization (lines 86-92: `w0 = 0`; `w`, `v` drawn from
`np.random.normal(0, init_stdev, ·)`, modelled as `init_stdev` times raw
stream values), MCMC_learn.__init__ state (lines 106-135), learn, and the
final predict. -/
def run_core {n n' m G K : ℕ} (inp : FMInputs n n' m G K) (rng0 : RNG) :
    MState n n' m G K × (Fin n' → ℚ) :=
  let flags := libFM_configure inp.method inp.param_regular
  let r0 : RState := ⟨rng0, 0⟩
  let wr : (Fin m → ℚ) × RState :=
    if inp.k1 then
      ((fun i => inp.init_stdev * r0.rng.gauss (r0.k + i.val)),
        ⟨r0.rng, r0.k + m⟩)
    else ((fun _ => 0), r0)
  let vr : (Fin K → Fin m → ℚ) × RState :=
    if 0 < K then
      ((fun f i => inp.init_stdev * wr.2.rng.gauss (wr.2.k + f.val * m + i.val)),
        ⟨wr.2.rng, wr.2.k + K * m⟩)
    else ((fun _ _ => 0), wr.2)
  let fm0 : FMModel m K :=
    { w0 := 0, w := wr.1, v := vr.1,
      reg0 := flags.reg0, regw := flags.regw, regv := flags.regv }
  let ctx := mk_ctx inp flags
  let s0 : MState n n' m G K :=
    { fm := fm0,
      hyp := { alpha := 1, w_mu := fun _ => 0, w_lambda := fun _ => flags.regw,
               v_mu := fun _ _ => 0, v_lambda := fun _ _ => flags.regv },
      cache := (fun _ => 0, fun _ => 0),
      cache_test := (fun _ => 0, fun _ => 0),
      pred_sum_all := fun _ => 0, pred_this := fun _ => 0, r := vr.2 }
  let sF := learn ctx s0
  (sF, predict ctx sF)

/-- One whole run from the seed and the ambient numpy stream: the seed guard
of libFM.__init__ (line 83) decides whether the ambient stream is replaced. -/
def run {n n' m G K : ℕ} (inp : FMInputs n n' m G K) (seedFn : ℤ → RNG)
    (ambient : RNG) : MState n n' m G K × (Fin n' → ℚ) :=
  run_core inp (effective_rng inp.seed seedFn ambient)

/-- A minimal IEEE-754-style value domain: finite rationals, signed
infinities (`true` = positive) and NaN.  Used for the claims where non-finite
float values are the point. -/
inductive EFloat where
  | fin : ℚ → EFloat
  | inf : Bool → EFloat
  | nan : EFloat
deriving DecidableEq

namespace EFloat

/-- `np.isinf` on the float domain. -/
def isInf : EFloat → Bool
  | inf _ => true
  | _ => false

/-- `np.isnan` on the float domain. -/
def isNaN : EFloat → Bool
  | nan => true
  | _ => false

/-- IEEE subtraction on the embedded float domain. -/
def sub : EFloat → EFloat → EFloat
  | nan, _ => nan
  | _, nan => nan
  | fin a, fin b => fin (a - b)
  | fin _, inf s => inf (!s)
  | inf s, fin _ => inf s
  | inf s, inf t => if s = t then nan else inf s

/-- IEEE multiplication on the embedded float domain (`0 * inf = nan`). -/
def mul : EFloat → EFloat → EFloat
  | nan, _ => nan
  | _, nan => nan
  | fin a, fin b => fin (a * b)
  | fin a, inf s => if a = 0 then nan else inf (decide (0 < a) == s)
  | inf s, fin a => if a = 0 then nan else inf (decide (0 < a) == s)
  | inf s, inf t => inf (s == t)

end EFloat

/-- The commit fragment of MCMC_learn.draw_w lines 341-351 (draw_v lines
378-388 is identical), on the float domain: `w_old` is copied, then the
isinf/isnan guard tests the PRE-draw parameter value `self.fm.w[i]`; only
when the pre-draw value is non-finite is 0 committed — otherwise the value
produced by the sampling/mean branch (`drawn`) is committed as is. -/
def draw_commit_guard (w_old drawn : EFloat) : EFloat :=
  if w_old.isInf then .fin 0
  else if w_old.isNaN then .fin 0
  else drawn

/-- Line 354 on the float domain: `self.cache[0] -= (w_old - self.fm.w[i]) * x_li`
with `x_li` one sparse column — scipy's scalar-times-sparse keeps the
sparsity pattern, so entries outside the support (modelled as `x c = 0`) are
structurally untouched even by a non-finite delta. -/
def draw_w_patch_float {n : ℕ} (cache0 : Fin n → EFloat) (delta : EFloat)
    (x : Fin n → ℚ) : Fin n → EFloat :=
  fun c => if x c = 0 then cache0 c else (cache0 c).sub (delta.mul (.fin (x c)))

end LibFM

namespace LibFM

lemma eterm_stage1_foldl {n m K : ℕ} (v : Fin K → Fin m → ℚ)
    (X : Fin n → Fin m → ℚ) :
    ∀ (l : List (Fin K)) (e : Fin n → ℚ),
      l.foldl (eterm_stage1 v X) (e, fun _ => 0) =
        (fun c => e c + (l.map (fun f =>
            (1 / 2 : ℚ) * (∑ i, v f i * X c i) * (∑ i, v f i * X c i))).sum,
          fun _ => 0) := by
  intro l
  induction l with
  | nil => intro e; simp
  | cons f t ih =>
    intro e
    rw [List.foldl_cons]
    have h1 : eterm_stage1 v X (e, fun _ => 0) f
        = (fun c => e c + (1 / 2 : ℚ) * (∑ i, v f i * X c i) * (∑ i, v f i * X c i),
            fun _ => 0) := by
      unfold eterm_stage1
      simp
    rw [h1, ih]
    simp only [List.map_cons, List.sum_cons, Prod.mk.injEq]
    refine ⟨funext fun c => ?_, trivial⟩
    ring

lemma eterm_stage2_foldl {n m K : ℕ} (v : Fin K → Fin m → ℚ)
    (X : Fin n → Fin m → ℚ) :
    ∀ (l : List (Fin K)) (eq : (Fin n → ℚ) × (Fin n → ℚ)),
      l.foldl (eterm_stage2 v X) eq =
        (eq.1, fun c => eq.2 c - (l.map (fun f =>
            (1 / 2 : ℚ) * ∑ i, (v f i * v f i) * (X c i * X c i))).sum) := by
  intro l
  induction l with
  | nil => intro eq; simp
  | cons f t ih =>
    intro eq
    rw [List.foldl_cons, ih]
    unfold eterm_stage2
    simp only [List.map_cons, List.sum_cons, Prod.mk.injEq]
    refine ⟨trivial, funext fun c => ?_⟩
    ring

/-- The e-row written by one full-recompute pass, in closed form. -/
lemma predict_eterms_fst {n m K : ℕ} (k0 k1 : Bool) (w0 : ℚ) (w : Fin m → ℚ)
    (v : Fin K → Fin m → ℚ) (X : Fin n → Fin m → ℚ)
    (prev : (Fin n → ℚ) × (Fin n → ℚ)) (c : Fin n)
    (hk0 : k0 = true) (hk1 : k1 = true) :
    (predict_data_and_write_to_eterms k0 k1 w0 w v X prev).1 c =
      w0 + (∑ i, w i * X c i)
        + ∑ f, ((1 / 2 : ℚ) * (∑ i, v f i * X c i) ^ 2
            - (1 / 2 : ℚ) * ∑ i, (v f i) ^ 2 * (X c i) ^ 2) := by
  subst hk0 hk1
  simp only [predict_data_and_write_to_eterms, zero_cache, eterm_stage1_foldl,
    eterm_stage2_foldl, if_true, zero_add, zero_sub]
  have hsum : ∀ (φ : Fin K → ℚ),
      ((List.finRange K).map φ).sum = ∑ f, φ f := fun φ => (Fin.sum_univ_def φ).symm
  rw [hsum, hsum, Finset.sum_sub_distrib]
  have h2 : ∀ f : Fin K,
      (1 / 2 : ℚ) * (∑ i, v f i * X c i) ^ 2
        = (1 / 2 : ℚ) * (∑ i, v f i * X c i) * (∑ i, v f i * X c i) := by
    intro f; ring
  have h3 : ∀ f : Fin K,
      (1 / 2 : ℚ) * ∑ i, (v f i) ^ 2 * (X c i) ^ 2
        = (1 / 2 : ℚ) * ∑ i, (v f i * v f i) * (X c i * X c i) := by
    intro f
    congr 1
    exact Finset.sum_congr rfl fun i _ => by ring
  rw [Finset.sum_congr rfl fun f _ => h2 f, Finset.sum_congr rfl fun f _ => h3 f]
  ring

/-- C1: after a full-recompute pass followed by the once-per-iteration
residual conversion (the iteration body of MCMC_learn.learn), the train
cache's e-row holds, for each sample c, exactly the FM prediction
`w0 + Σ_i w_i x_i + Σ_f (0.5 (Σ_i v_fi x_i)² − 0.5 Σ_i v_fi² x_i²)` minus the
observed target; equivalently the cache's error term plus the target equals
the prediction re-derived directly from the model state and the data.  The
target is subtracted exactly once, by the single `subtract_target` in
`eval_step`, right after `recompute_step`. -/
theorem eterm_residual_formula {n n' m G K : ℕ} (ctx : LearnCtx n n' m G K)
    (s : MState n n' m G K) (c : Fin n)
    (hk0 : ctx.k0 = true) (hk1 : ctx.k1 = true) :
    (eval_step ctx (recompute_step ctx s)).cache.1 c =
      (s.fm.w0 + (∑ i, s.fm.w i * ctx.X c i)
        + ∑ f, ((1 / 2 : ℚ) * (∑ i, s.fm.v f i * ctx.X c i) ^ 2
            - (1 / 2 : ℚ) * ∑ i, (s.fm.v f i) ^ 2 * (ctx.X c i) ^ 2))
      - ctx.target c := by
  show subtract_target (recompute_step ctx s).cache.1 ctx.target c = _
  unfold subtract_target
  rw [show (recompute_step ctx s).cache.1
      = (predict_data_and_write_to_eterms ctx.k0 ctx.k1 s.fm.w0 s.fm.w s.fm.v
          ctx.X s.cache).1 from rfl]
  rw [predict_eterms_fst ctx.k0 ctx.k1 s.fm.w0 s.fm.w s.fm.v ctx.X s.cache c hk0 hk1]

def ctxC1 : LearnCtx 1 1 1 1 1 :=
  { X := fun _ _ => 3, target := fun _ => 5, Xtest := fun _ _ => 0,
    target_test := fun _ => 0, attr_group := fun _ => 0,
    num_attr_per_group := fun _ => 1, k0 := true, k1 := true,
    do_sample := false, do_multilevel := false, num_iter := 1,
    min_target := 0, max_target := 5, sqrtQ := fun _ => 0 }

def sC1 : MState 1 1 1 1 1 :=
  { fm := { w0 := 1, w := fun _ => 2, v := fun _ _ => 1,
            reg0 := 0, regw := 0, regv := 0 },
    hyp := { alpha := 1, w_mu := fun _ => 0, w_lambda := fun _ => 0,
             v_mu := fun _ _ => 0, v_lambda := fun _ _ => 0 },
    cache := (fun _ => 0, fun _ => 0), cache_test := (fun _ => 0, fun _ => 0),
    pred_sum_all := fun _ => 0, pred_this := fun _ => 0,
    r := ⟨⟨fun _ => 0, fun _ _ _ => 0⟩, 0⟩ }

/-- Witness for `eterm_residual_formula` at a concrete model and dataset. -/
theorem eterm_residual_formula_witness :
    ctxC1.k0 = true ∧ ctxC1.k1 = true ∧
    (eval_step ctxC1 (recompute_step ctxC1 sC1)).cache.1 0 =
      (sC1.fm.w0 + (∑ i, sC1.fm.w i * ctxC1.X 0 i)
        + ∑ f, ((1 / 2 : ℚ) * (∑ i, sC1.fm.v f i * ctxC1.X 0 i) ^ 2
            - (1 / 2 : ℚ) * ∑ i, (sC1.fm.v f i) ^ 2 * (ctxC1.X 0 i) ^ 2))
      - ctxC1.target 0 :=
  ⟨rfl, rfl, eterm_residual_formula ctxC1 sC1 0 rfl rfl⟩

/-- C4 (amended): the full-recompute pass begins by discarding the entire
previous cache (both rows are replaced by zeros, so the q-row is zero at the
start of the pass's computation and no q-state is carried in), and the q-row
it writes is identically zero at the end, for both the train and the test
cache.  (At the moment the pass is entered, however, the train q-row may
still hold leftover values from the preceding draw_all factor loop — see the
counterexample.) -/
theorem qrow_zero_start_end {n n' m G K : ℕ} (ctx : LearnCtx n n' m G K)
    (s : MState n n' m G K) (prev : (Fin n → ℚ) × (Fin n → ℚ))
    (c : Fin n) (c' : Fin n') :
    (zero_cache prev).2 c = 0 ∧
    (recompute_step ctx s).cache.2 c = 0 ∧
    (recompute_step ctx s).cache_test.2 c' = 0 :=
  ⟨rfl, rfl, rfl⟩

def ctxC4 : LearnCtx 1 1 2 1 1 :=
  { X := fun _ _ => 1, target := fun _ => 0, Xtest := fun _ _ => 0,
    target_test := fun _ => 0, attr_group := fun _ => 0,
    num_attr_per_group := fun _ => 2, k0 := false, k1 := false,
    do_sample := false, do_multilevel := false, num_iter := 1,
    min_target := 0, max_target := 1, sqrtQ := fun _ => 0 }

def sC4 : MState 1 1 2 1 1 :=
  { fm := { w0 := 0, w := fun _ => 0, v := fun _ _ => 1,
            reg0 := 0, regw := 0, regv := 0 },
    hyp := { alpha := 1, w_mu := fun _ => 0, w_lambda := fun _ => 0,
             v_mu := fun _ _ => 0, v_lambda := fun _ _ => 0 },
    cache := (fun _ => 0, fun _ => 0), cache_test := (fun _ => 0, fun _ => 0),
    pred_sum_all := fun _ => 0, pred_this := fun _ => 0,
    r := ⟨⟨fun _ => 0, fun _ _ _ => 0⟩, 0⟩ }

/-- C4 counterexample: the state that draw_all hands to the next
full-recompute pass (MCMC_learn.learn line 149 runs draw_all, line 150
immediately enters predict_data_and_write_to_eterms on its result) has a
NONZERO train q-row — here the value 2 at sample 0, left by the last factor
dimension's loop — so the claim's "at the start ... of every full-recompute
pass the cache's partial row (cache[1]) is exactly zero" is false for the
state at pass entry. -/
theorem qrow_nonzero_at_recompute_entry :
    (draw_all ctxC4 sC4).cache.2 0 = 2 ∧ (draw_all ctxC4 sC4).cache.2 0 ≠ 0 := by
  have hfr1 : List.finRange 1 = [0] := by decide
  have hfr2 : List.finRange 2 = [(0 : Fin 2), 1] := by decide
  simp only [draw_all, draw_alpha, draw_v_lambda, draw_v_mu, draw_v, draw_v_step,
    draw_w0, draw_w, draw_w_step, draw_w_mu, draw_w_lambda, patch_row,
    np_isinf, np_isnan, ctxC4, sC4, mu_0, alpha_0, hfr1, hfr2,
    List.foldl_cons, List.foldl_nil, Fin.sum_univ_one, Fin.sum_univ_two,
    Function.update]
  norm_num

end LibFM

namespace LibFM

/-- C2 evidence (code bug): the commit-and-patch fragment of draw_w / draw_v
evaluated on the float domain at a coordinate whose pre-draw value is the
finite 2 and whose raw posterior draw is +Infinity.  The guard (lines
343-346 / 380-383) tests the PRE-draw value, so the non-finite draw is
committed as is (first two conjuncts), a NaN draw is likewise committed
(third conjunct), and the subsequent cache patch is computed from the
degenerate committed value: with delta `w_old - (+inf) = -inf` the patched
cache entry on the column's support becomes `0 - (-inf * 1) = +inf` (fourth
conjunct) — not the `delta = w_old - 0` patch the claim requires. -/
theorem draw_guard_commits_nonfinite :
    draw_commit_guard (.fin 2) (.inf true) = .inf true ∧
    draw_commit_guard (.fin 2) (.inf true) ≠ .fin 0 ∧
    draw_commit_guard (.fin 2) .nan = .nan ∧
    draw_w_patch_float (fun _ : Fin 1 => .fin 0)
        ((EFloat.fin 2).sub (draw_commit_guard (.fin 2) (.inf true)))
        (fun _ => 1) 0 = .inf true := by
  refine ⟨rfl, by decide, rfl, ?_⟩
  show (if (1 : ℚ) = 0 then _ else _) = _
  rw [if_neg (by norm_num)]
  rfl

/-- C3 evidence (code bug): constructing libFM with `method='als'` and the
regularization triple (1, 2, 3) yields `do_sample = do_multilevel = False`
but reg0 = regw = regv = 0 — the supplied constants are discarded, because
the `'als'` branch rebinds `method = 'mcmc'` before the regularization test
(and MCMC_learn.learn line 139 re-zeroes the fm reg fields anyway). -/
theorem als_regularization_discarded :
    (libFM_configure .als (1, 2, 3)).reg0 = 0 ∧
    (libFM_configure .als (1, 2, 3)).regw = 0 ∧
    (libFM_configure .als (1, 2, 3)).regv = 0 ∧
    (libFM_configure .als (1, 2, 3)).do_sample = false ∧
    (libFM_configure .als (1, 2, 3)).do_multilevel = false :=
  ⟨rfl, rfl, rfl, rfl, rfl⟩

/-- C5: draw_alpha.  In non-multilevel mode alpha is set to its prior value
`alpha_0` and nothing is drawn (the random state is untouched); in
multilevel mode alpha becomes the value of the Gamma sampler called with
shape `(alpha_0 + N)/2` and scale `1 / ((Σ_c e_c²)/2)` — i.e. a Gamma draw
with rate `(Σ_c e_c²)/2`, since `ran_gamma` passes the reciprocal of its
rate argument to the scale-parameterized `np.random.gamma`. -/
theorem draw_alpha_cases {n n' m G K : ℕ} (ctx : LearnCtx n n' m G K)
    (s : MState n n' m G K) :
    (ctx.do_multilevel = false →
      (draw_alpha ctx s).hyp.alpha = alpha_0 ∧ (draw_alpha ctx s).r = s.r) ∧
    (ctx.do_multilevel = true →
      (draw_alpha ctx s).hyp.alpha =
        s.r.rng.gammaDraw s.r.k ((alpha_0 + (n : ℚ)) / 2)
          (1 / ((∑ c, s.cache.1 c * s.cache.1 c) / 2))) := by
  constructor
  · intro h
    simp [draw_alpha, h]
  · intro h
    simp [draw_alpha, h, ran_gamma, np_gamma]

def ctxC5on : LearnCtx 1 1 1 1 0 :=
  { X := fun _ _ => 1, target := fun _ => 1, Xtest := fun _ _ => 1,
    target_test := fun _ => 1, attr_group := fun _ => 0,
    num_attr_per_group := fun _ => 1, k0 := true, k1 := true,
    do_sample := true, do_multilevel := true, num_iter := 1,
    min_target := 0, max_target := 1, sqrtQ := fun _ => 0 }

def ctxC5off : LearnCtx 1 1 1 1 0 :=
  { ctxC5on with do_sample := false, do_multilevel := false }

def sC5 : MState 1 1 1 1 0 :=
  { fm := { w0 := 0, w := fun _ => 0, v := fun _ _ => 0,
            reg0 := 0, regw := 0, regv := 0 },
    hyp := { alpha := 1, w_mu := fun _ => 0, w_lambda := fun _ => 0,
             v_mu := fun _ _ => 0, v_lambda := fun _ _ => 0 },
    cache := (fun _ => 3, fun _ => 0), cache_test := (fun _ => 0, fun _ => 0),
    pred_sum_all := fun _ => 0, pred_this := fun _ => 0,
    r := ⟨⟨fun _ => 0, fun k a b => a + b + k⟩, 0⟩ }

/-- Witness for `draw_alpha_cases` at concrete non-multilevel and multilevel
states. -/
theorem draw_alpha_cases_witness :
    ((draw_alpha ctxC5off sC5).hyp.alpha = alpha_0 ∧
      (draw_alpha ctxC5off sC5).r = sC5.r) ∧
    (draw_alpha ctxC5on sC5).hyp.alpha =
      sC5.r.rng.gammaDraw sC5.r.k ((alpha_0 + ((1 : ℕ) : ℚ)) / 2)
        (1 / ((∑ c, sC5.cache.1 c * sC5.cache.1 c) / 2)) :=
  ⟨(draw_alpha_cases ctxC5off sC5).1 rfl, (draw_alpha_cases ctxC5on sC5).2 rfl⟩

/-- C6: the per-iteration aggregation and the final prediction.  Every
iteration adds the CLIPPED test prediction vector to the running sum
`pred_sum_all` and stores the raw vector in `pred_this`; the final
MCMC_learn.predict returns `pred_sum_all / num_iter`, clipped, when
do_sample is true, and the last single prediction vector `pred_this`,
clipped with no averaging, when do_sample is false. -/
theorem prediction_aggregation {n n' m G K : ℕ} (ctx : LearnCtx n n' m G K)
    (s : MState n n' m G K) (c : Fin n') :
    ((eval_step ctx s).pred_sum_all c
        = s.pred_sum_all c
          + np_clip (s.cache_test.1 c) ctx.min_target ctx.max_target) ∧
    ((eval_step ctx s).pred_this c = s.cache_test.1 c) ∧
    (ctx.do_sample = true →
      predict ctx s c
        = np_clip (s.pred_sum_all c / (ctx.num_iter : ℚ))
            ctx.min_target ctx.max_target) ∧
    (ctx.do_sample = false →
      predict ctx s c
        = np_clip (s.pred_this c) ctx.min_target ctx.max_target) := by
  refine ⟨rfl, rfl, ?_, ?_⟩ <;> intro h <;> simp [predict, h]

/-- Witness for `prediction_aggregation`, at a sampling-mode and a
point-estimate-mode context. -/
theorem prediction_aggregation_witness :
    ((eval_step ctxC5on sC5).pred_sum_all 0
        = sC5.pred_sum_all 0
          + np_clip (sC5.cache_test.1 0) ctxC5on.min_target ctxC5on.max_target) ∧
    (predict ctxC5on sC5 0
        = np_clip (sC5.pred_sum_all 0 / (ctxC5on.num_iter : ℚ))
            ctxC5on.min_target ctxC5on.max_target) ∧
    (predict ctxC5off sC5 0
        = np_clip (sC5.pred_this 0) ctxC5off.min_target ctxC5off.max_target) :=
  ⟨(prediction_aggregation ctxC5on sC5 0).1,
    (prediction_aggregation ctxC5on sC5 0).2.2.1 rfl,
    (prediction_aggregation ctxC5off sC5 0).2.2.2 rfl⟩

/-- C7: the per-coordinate cache patches only subtract `delta * column`
(resp. `delta * h`, whose support is contained in the column's): a sample c
with `x_{c,i} = 0` — a sample not containing feature i — has its e-term
entry (and, for factor draws, its q-term entry) unchanged by that draw's
patch. -/
theorem patch_frame_property {n n' m G K : ℕ} (ctx : LearnCtx n n' m G K)
    (w_mu w_lambda v_mu v_lambda : Fin m → ℚ) (alpha : ℚ)
    (w vf : Fin m → ℚ) (e q : Fin n → ℚ) (r : RState) (i : Fin m) (c : Fin n)
    (hx : ctx.X c i = 0) :
    ((draw_w_step ctx w_mu w_lambda alpha (w, e, r) i).2.1 c = e c) ∧
    ((draw_v_step ctx v_mu v_lambda alpha (vf, e, q, r) i).2.1 c = e c) ∧
    ((draw_v_step ctx v_mu v_lambda alpha (vf, e, q, r) i).2.2.1 c = q c) := by
  refine ⟨?_, ?_, ?_⟩ <;>
    simp [draw_w_step, draw_v_step, patch_row, hx]

def ctxC7 : LearnCtx 1 1 1 1 0 :=
  { ctxC5on with X := fun _ _ => 0 }

/-- Witness for `patch_frame_property` at a concrete zero column entry. -/
theorem patch_frame_property_witness :
    ((draw_w_step ctxC7 (fun _ => 0) (fun _ => 0) 1
        ((fun _ => 5), (fun _ => 7), sC5.r) 0).2.1 0 = 7) ∧
    ((draw_v_step ctxC7 (fun _ => 0) (fun _ => 0) 1
        ((fun _ => 5), (fun _ => 7), (fun _ => 11), sC5.r) 0).2.1 0 = 7) ∧
    ((draw_v_step ctxC7 (fun _ => 0) (fun _ => 0) 1
        ((fun _ => 5), (fun _ => 7), (fun _ => 11), sC5.r) 0).2.2.1 0 = 11) :=
  patch_frame_property ctxC7 (fun _ => 0) (fun _ => 0) (fun _ => 0) (fun _ => 0)
    1 (fun _ => 5) (fun _ => 5) (fun _ => 7) (fun _ => 11) sC5.r 0 0 rfl

lemma effective_rng_seeded (s : ℤ) (hs : -1 < s) (seedFn : ℤ → RNG)
    (amb : RNG) : effective_rng (some s) seedFn amb = seedFn s := by
  simp [effective_rng, seed_active, hs]

/-- C9: determinism.  With a fixed active seed (an integer above -1, the
guard of libFM.__init__ line 83) and identical inputs, the entire run — the
final model state (w0, w, v), all caches, and the final prediction vector —
is independent of the ambient numpy stream: two runs that differ only in the
ambient stream produce identical results, in every mode (point-estimate or
sampling).  Sampling mode with the same underlying stream is the special
case amb = amb'.  (In the exact-arithmetic embedding, equality of states is
the analogue of bit-identical model states.) -/
theorem seeded_run_deterministic {n n' m G K : ℕ} (inp : FMInputs n n' m G K)
    (seedFn : ℤ → RNG) (amb amb' : RNG) (s : ℤ)
    (hseed : inp.seed = some s) (hs : -1 < s) :
    run inp seedFn amb = run inp seedFn amb' := by
  unfold run
  rw [hseed, effective_rng_seeded s hs, effective_rng_seeded s hs]

def inpC9 : FMInputs 1 1 1 1 0 :=
  { X := fun _ _ => 1, target := fun _ => 1, Xtest := fun _ _ => 1,
    target_test := fun _ => 0, attr_group := fun _ => 0,
    num_attr_per_group := fun _ => 1, k0 := true, k1 := true,
    num_iter := 1, init_stdev := 1 / 10, method := .mcmc,
    param_regular := (0, 0, 1 / 10), seed := some 3, sqrtQ := fun _ => 0 }

def seedFnC9 : ℤ → RNG := fun z => ⟨fun k => z + k, fun k a b => a + b + k⟩

def ambC9a : RNG := ⟨fun _ => 5, fun _ _ _ => 7⟩

def ambC9b : RNG := ⟨fun _ => 11, fun _ _ _ => 13⟩

/-- Witness for `seeded_run_deterministic`: a concrete seeded run is
unchanged when the ambient stream is replaced. -/
theorem seeded_run_deterministic_witness :
    inpC9.seed = some 3 ∧ (-1 : ℤ) < 3 ∧
    run inpC9 seedFnC9 ambC9a = run inpC9 seedFnC9 ambC9b :=
  ⟨rfl, by decide,
    seeded_run_deterministic inpC9 seedFnC9 ambC9a ambC9b 3 rfl (by decide)⟩

end LibFM

namespace LibFM

/-- C8 counterexample: evaluate on a prediction vector of length 2 and a
target vector of length 1 — the leading assert fires (result `none`, i.e.
failure), the lengths are NOT reconciled by truncation to
min(len(pred), len(target)) = 1 samples as the claim states. -/
theorem evaluate_length_mismatch_fails :
    evaluate 0 1 [1, 1] [1] 1 0 2 = none := rfl

lemma zipWith_take_range (f : ℚ → ℚ → ℚ) :
    ∀ (e : ℕ) (l1 l2 : List ℚ), e ≤ l1.length → e ≤ l2.length →
      List.zipWith f (l1.take e) (l2.take e)
        = (List.range e).map (fun c => f (l1.getD c 0) (l2.getD c 0)) := by
  intro e
  induction e with
  | zero => intro l1 l2 _ _; simp
  | succ e ih =>
    intro l1 l2 h1 h2
    match l1, l2 with
    | [], _ => simp at h1
    | _ :: _, [] => simp at h2
    | a :: t1, b :: t2 =>
      rw [List.take_succ_cons, List.take_succ_cons, List.zipWith_cons_cons,
        List.range_succ_eq_map, List.map_cons, List.map_map,
        ih t1 t2 (by simpa using h1) (by simpa using h2)]
      simp [Function.comp]

/-- C8 (amended): when the asserted precondition `len(pred) == len(target)`
holds, evaluate returns the pair (RMSE radicand, MAE) computed over exactly
`min(len(pred), to_case)` samples — `to_case` being the caller-supplied case
bound, NOT `len(target)` — with each error term the difference between the
normalized-then-clipped prediction and the target; a length mismatch is an
assertion failure (see the counterexample), not a truncation. -/
theorem evaluate_truncation_formula (min_t max_t : ℚ) (pred target : List ℚ)
    (normalizer : ℚ) (from_case to_case : ℕ)
    (h : pred.length = target.length) :
    evaluate min_t max_t pred target normalizer from_case to_case =
      some ((((List.range (min pred.length to_case)).map (fun c =>
            (np_clip (pred.getD c 0 * normalizer) min_t max_t - target.getD c 0)
              * (np_clip (pred.getD c 0 * normalizer) min_t max_t
                  - target.getD c 0))).sum)
          / ((min pred.length to_case : ℕ) : ℚ),
        (((List.range (min pred.length to_case)).map (fun c =>
            |np_clip (pred.getD c 0 * normalizer) min_t max_t
              - target.getD c 0|)).sum)
          / ((min pred.length to_case : ℕ) : ℚ)) := by
  simp only [evaluate]
  rw [if_pos h]
  have hzip : List.zipWith (fun a b => a - b)
      ((pred.take (min pred.length to_case)).map
        (fun p => np_clip (p * normalizer) min_t max_t))
      (target.take (min pred.length to_case))
      = (List.range (min pred.length to_case)).map
          (fun c => np_clip (pred.getD c 0 * normalizer) min_t max_t
            - target.getD c 0) := by
    rw [List.zipWith_map_left]
    exact zipWith_take_range (fun a b => np_clip (a * normalizer) min_t max_t - b)
      (min pred.length to_case) pred target (min_le_left _ _)
      (h ▸ min_le_left _ _)
  rw [hzip]
  simp [List.map_map, Function.comp_def]

/-- Witness for `evaluate_truncation_formula` at concrete equal-length
vectors. -/
theorem evaluate_truncation_formula_witness :
    evaluate 0 2 [1, 3] [1, 2] 1 0 5 =
      some ((((List.range (min ([1, 3] : List ℚ).length 5)).map (fun c =>
            (np_clip (([1, 3] : List ℚ).getD c 0 * 1) 0 2
                - ([1, 2] : List ℚ).getD c 0)
              * (np_clip (([1, 3] : List ℚ).getD c 0 * 1) 0 2
                  - ([1, 2] : List ℚ).getD c 0))).sum)
          / ((min ([1, 3] : List ℚ).length 5 : ℕ) : ℚ),
        (((List.range (min ([1, 3] : List ℚ).length 5)).map (fun c =>
            |np_clip (([1, 3] : List ℚ).getD c 0 * 1) 0 2
              - ([1, 2] : List ℚ).getD c 0|)).sum)
          / ((min ([1, 3] : List ℚ).length 5 : ℕ) : ℚ)) :=
  evaluate_truncation_formula 0 2 [1, 3] [1, 2] 1 0 5 rfl

lemma foldl_min_le_init {n : ℕ} (target : Fin n → ℚ) (l : List (Fin n)) :
    ∀ a : WithTop ℚ,
      l.foldl (fun acc c => min acc (target c : WithTop ℚ)) a ≤ a := by
  induction l with
  | nil => intro a; simp
  | cons d t ih =>
    intro a
    rw [List.foldl_cons]
    exact le_trans (ih _) (min_le_left _ _)

lemma foldl_min_le_mem {n : ℕ} (target : Fin n → ℚ) (l : List (Fin n)) :
    ∀ (a : WithTop ℚ) (c : Fin n), c ∈ l →
      l.foldl (fun acc c' => min acc (target c' : WithTop ℚ)) a
        ≤ (target c : WithTop ℚ) := by
  induction l with
  | nil => intro a c hc; cases hc
  | cons d t ih =>
    intro a c hc
    rw [List.foldl_cons]
    rcases List.mem_cons.mp hc with h | h
    · subst h
      exact le_trans (foldl_min_le_init target t _) (min_le_right _ _)
    · exact ih _ c h

lemma foldl_max_ge_init {n : ℕ} (target : Fin n → ℚ) (l : List (Fin n)) :
    ∀ a : WithBot ℚ,
      a ≤ l.foldl (fun acc c => max acc (target c : WithBot ℚ)) a := by
  induction l with
  | nil => intro a; simp
  | cons d t ih =>
    intro a
    rw [List.foldl_cons]
    exact le_trans (le_max_left _ _) (ih _)

lemma foldl_max_ge_mem {n : ℕ} (target : Fin n → ℚ) (l : List (Fin n)) :
    ∀ (a : WithBot ℚ) (c : Fin n), c ∈ l →
      (target c : WithBot ℚ)
        ≤ l.foldl (fun acc c' => max acc (target c' : WithBot ℚ)) a := by
  induction l with
  | nil => intro a c hc; cases hc
  | cons d t ih =>
    intro a c hc
    rw [List.foldl_cons]
    rcases List.mem_cons.mp hc with h | h
    · subst h
      exact le_trans (le_max_right _ _) (foldl_max_ge_init target t _)
    · exact ih _ c h

lemma data_min_target_le {n : ℕ} (target : Fin n → ℚ) (c : Fin n) :
    data_min_target target ≤ (target c : WithTop ℚ) :=
  foldl_min_le_mem target (List.finRange n) ⊤ c (List.mem_finRange c)

lemma le_data_max_target {n : ℕ} (target : Fin n → ℚ) (c : Fin n) :
    (target c : WithBot ℚ) ≤ data_max_target target :=
  foldl_max_ge_mem target (List.finRange n) ⊥ c (List.mem_finRange c)

lemma data_min_coe_pos {n : ℕ} (target : Fin n → ℚ) (lo : ℚ)
    (hlo : data_min_target target = (lo : WithTop ℚ)) : 0 < n := by
  rcases n with _ | n
  · exact absurd hlo.symm (WithTop.coe_ne_top (a := lo))
  · exact Nat.succ_pos n

lemma data_bounds_le {n : ℕ} (target : Fin n → ℚ) (lo hi : ℚ)
    (hlo : data_min_target target = (lo : WithTop ℚ))
    (hhi : data_max_target target = (hi : WithBot ℚ)) : lo ≤ hi := by
  have hn := data_min_coe_pos target lo hlo
  have h1 : (lo : WithTop ℚ) ≤ (target ⟨0, hn⟩ : WithTop ℚ) :=
    hlo ▸ data_min_target_le target ⟨0, hn⟩
  have h2 : (target ⟨0, hn⟩ : WithBot ℚ) ≤ (hi : WithBot ℚ) :=
    hhi ▸ le_data_max_target target ⟨0, hn⟩
  exact le_trans (WithTop.coe_le_coe.mp h1) (WithBot.coe_le_coe.mp h2)

lemma np_clip_mem (x lo hi : ℚ) (h : lo ≤ hi) :
    lo ≤ np_clip x lo hi ∧ np_clip x lo hi ≤ hi :=
  ⟨le_min (le_max_right x lo) h, min_le_right _ _⟩

/-- C10: the clipping bounds the engine stores at construction — and applies
to the per-iteration accumulation and to the final predict output — are the
TRAINING set's target minimum and maximum (mk_ctx reads `inp.target`, never
`inp.target_test`), so every element of the final regression prediction
vector lies within [train.min_target, train.max_target]. -/
theorem clip_bounds_from_train {n n' m G K : ℕ} (inp : FMInputs n n' m G K)
    (seedFn : ℤ → RNG) (amb : RNG) (lo hi : ℚ)
    (hlo : data_min_target inp.target = (lo : WithTop ℚ))
    (hhi : data_max_target inp.target = (hi : WithBot ℚ)) (c : Fin n') :
    (mk_ctx inp (libFM_configure inp.method inp.param_regular)).min_target = lo ∧
    (mk_ctx inp (libFM_configure inp.method inp.param_regular)).max_target = hi ∧
    lo ≤ (run inp seedFn amb).2 c ∧ (run inp seedFn amb).2 c ≤ hi := by
  have hle := data_bounds_le inp.target lo hi hlo hhi
  have hmin : (mk_ctx inp (libFM_configure inp.method inp.param_regular)).min_target
      = lo := by
    show (data_min_target inp.target).untop' 0 = lo
    rw [hlo]
    rfl
  have hmax : (mk_ctx inp (libFM_configure inp.method inp.param_regular)).max_target
      = hi := by
    show (data_max_target inp.target).unbot' 0 = hi
    rw [hhi]
    rfl
  have hy : ∃ y, (run inp seedFn amb).2 c
      = np_clip y ((data_min_target inp.target).untop' 0)
          ((data_max_target inp.target).unbot' 0) := ⟨_, rfl⟩
  obtain ⟨y, hy⟩ := hy
  have hy2 : (run inp seedFn amb).2 c = np_clip y lo hi := by
    rw [hy, hlo, hhi]
    rfl
  rw [hy2]
  exact ⟨hmin, hmax, (np_clip_mem y lo hi hle).1, (np_clip_mem y lo hi hle).2⟩

def inpC10 : FMInputs 1 1 1 1 0 :=
  { X := fun _ _ => 1, target := fun _ => 3, Xtest := fun _ _ => 1,
    target_test := fun _ => 9, attr_group := fun _ => 0,
    num_attr_per_group := fun _ => 1, k0 := true, k1 := true,
    num_iter := 1, init_stdev := 1 / 10, method := .mcmc,
    param_regular := (0, 0, 1 / 10), seed := none, sqrtQ := fun _ => 0 }

def seedFnC10 : ℤ → RNG := fun _ => ⟨fun _ => 0, fun _ _ _ => 0⟩

def ambC10 : RNG := ⟨fun _ => 2, fun _ _ _ => 2⟩

/-- Witness for `clip_bounds_from_train` at a concrete one-sample training
set with constant target 3 (and a test target of 9, which does not move the
bounds). -/
theorem clip_bounds_from_train_witness :
    data_min_target inpC10.target = ((3 : ℚ) : WithTop ℚ) ∧
    data_max_target inpC10.target = ((3 : ℚ) : WithBot ℚ) ∧
    ((mk_ctx inpC10 (libFM_configure inpC10.method inpC10.param_regular)).min_target
        = 3 ∧
      (mk_ctx inpC10 (libFM_configure inpC10.method inpC10.param_regular)).max_target
        = 3 ∧
      3 ≤ (run inpC10 seedFnC10 ambC10).2 0 ∧ (run inpC10 seedFnC10 ambC10).2 0 ≤ 3) :=
  ⟨rfl, rfl, clip_bounds_from_train inpC10 seedFnC10 ambC10 3 3 rfl rfl 0⟩

end LibFM
